import Mathlib

/-!
Verification development for the market-analytics engine of the repository
(technical indicators, quant statistics, ranked scans, RSI backtest).

The JavaScript source is shallowly embedded:
* numbers are modelled as exact rationals `ℚ` (the source uses IEEE floats;
  every property proved below depends only on arithmetic identities, guarded
  divisions, clamping or sign information that is the same in both semantics);
* a JS array of numbers-or-null is `List (Option ℚ)`; the JS values `null`
  and `undefined` (holes created by out-of-bounds assignment) are merged into
  `none`, which is faithful to the source because the source only ever tests
  entries with the loose comparison `v != null`;
* assignment `a[i] = v` past the end of an array extends it with holes, as in
  JS (`jsSet`);
* `Math.sqrt` and `Math.pow` are transcendental, so the functions that use
  them take the square-root / power function as an explicit parameter; the
  executable stand-in `ratSqrt` (floor square root of numerator and
  denominator) agrees with `Math.sqrt` at `0` and at perfect squares, and all
  concrete evaluations below only use it through sign tests and the `[0,3]`
  clamp, where the floor approximation and the float value agree;
* the asynchronous Yahoo fetch layer is an oracle parameter
  `fetch : String → Option (List Row)`; `none` covers both a `null` reply and
  a thrown fetch error, because the source's `try { … } catch { continue; }`
  treats the two identically (skip the symbol);
* the quote-batch layer is an oracle `String → Option Quote` (for scans that
  use fundamentals) or `String → Option String` (where only the display name
  is read).
-/

set_option maxRecDepth 40000
set_option synthInstance.maxSize 1000

/-- JS array read `a[i]` on a numbers-or-null array: out of bounds gives
`undefined`, merged with `null` into `none`. -/
def jsGet (l : List (Option ℚ)) (i : ℕ) : Option ℚ :=
  (l.get? i).join

/-- JS array assignment `a[i] = v`: in range it replaces the entry, past the
end it extends the array with holes (read back as `none`). -/
def jsSet (l : List (Option ℚ)) (i : ℕ) (v : ℚ) : List (Option ℚ) :=
  if i < l.length then l.set i (some v)
  else l ++ List.replicate (i - l.length) none ++ [some v]

/-- `Math.max(...list)` at a call site where the list is known nonempty
(the source guards every use with a length check; `Math.max()` of an empty
spread would be `-Infinity`, which never occurs on the guarded paths). -/
def maxD : List ℚ → ℚ
  | [] => 0
  | x :: xs => xs.foldl max x

/-- `+x.toFixed(1)` : round to one decimal place (ties go up, as in the
`toFixed` specification). -/
def toFixed1 (q : ℚ) : ℚ := ((round (q * 10) : ℤ) : ℚ) / 10

/-- `+x.toFixed(2)` : round to two decimal places. -/
def toFixed2 (q : ℚ) : ℚ := ((round (q * 100) : ℤ) : ℚ) / 100

/-- Fuel-driven binary search for the floor square root of a natural number
(structural recursion, so that concrete instances evaluate). -/
def nsqrtGo : ℕ → ℕ → ℕ → ℕ → ℕ
  | 0, _, lo, _ => lo
  | f + 1, n, lo, hi =>
    if hi ≤ lo then lo
    else
      let mid := (lo + hi + 1) / 2
      if mid * mid ≤ n then nsqrtGo f n mid hi else nsqrtGo f n lo (mid - 1)

/-- Floor square root of a natural number. 400 halving steps cover every
number below `2^400`, far beyond any value occurring here. -/
def nsqrt (n : ℕ) : ℕ := nsqrtGo 400 n 0 n

/-- Executable stand-in for `Math.sqrt` on nonnegative rationals: floor square
root of numerator and denominator.  Exact at `0` and at perfect squares;
theorems that involve other inputs use the square root only through sign
tests and clamps that are insensitive to the floor approximation. -/
def ratSqrt (q : ℚ) : ℚ := (nsqrt q.num.toNat : ℚ) / (nsqrt q.den : ℚ)

/-- JS `a || b` on numbers-or-null: `a` unless it is falsy (`null` or `0`). -/
def jsOrQ (x y : Option ℚ) : Option ℚ :=
  match x with
  | some v => if v = 0 then y else some v
  | none => y

/-- JS `arr.filter(v => v != null).pop() || dflt`: last non-null entry, with
the default also taken when that entry is `0` (JS `0` is falsy). -/
def latestNonNull (l : List (Option ℚ)) (dflt : ℚ) : ℚ :=
  match (l.filterMap id).getLast? with
  | none => dflt
  | some v => if v = 0 then dflt else v

-- ── Technical indicators (src/unnamed/part_002, lines 310-424) ──

/-- `calcSMA(data, period)`. -/
def calcSMA (data : List ℚ) (period : ℕ) : List (Option ℚ) :=
  (List.range' (period - 1) (data.length - (period - 1))).foldl
    (fun res i =>
      jsSet res i
        (((List.range' (i + 1 - period) period).map (fun j => data.getD j 0)).sum / period))
    (List.replicate data.length none)

/-- `calcEMA(data, period)`.  Note that when `data.length < period` the
assignment `result[period-1] = ema` extends the array beyond the input
length, exactly as in JS. -/
def calcEMA (data : List ℚ) (period : ℕ) : List (Option ℚ) :=
  let k : ℚ := 2 / ((period : ℚ) + 1)
  let ema0 : ℚ := (data.take period).sum / period
  let init := jsSet (List.replicate data.length none) (period - 1) ema0
  ((List.range' period (data.length - period)).foldl
    (fun (st : List (Option ℚ) × ℚ) i =>
      let e := data.getD i 0 * k + st.2 * (1 - k)
      (jsSet st.1 i e, e))
    (init, ema0)).1

/-- The RSI formula `avgLoss === 0 ? 100 : 100 - (100 / (1 + avgGain/avgLoss))`. -/
def rsiVal (g l : ℚ) : ℚ := if l = 0 then 100 else 100 - 100 / (1 + g / l)

/-- The seed average gain of `calcRSI` (mean of the positive deltas over the
first `period` bars). -/
def rsiInitG (closes : List ℚ) (period : ℕ) : ℚ :=
  ((List.range' 1 period).map (fun i =>
    let d := closes.getD i 0 - closes.getD (i - 1) 0
    if 0 < d then d else 0)).sum / period

/-- The seed average loss of `calcRSI`. -/
def rsiInitL (closes : List ℚ) (period : ℕ) : ℚ :=
  ((List.range' 1 period).map (fun i =>
    let d := closes.getD i 0 - closes.getD (i - 1) 0
    if 0 < d then 0 else |d|)).sum / period

/-- One Wilder-smoothing iteration of `calcRSI` at bar `i`; the state is
`(rsi array so far, avgGain, avgLoss)`. -/
def rsiStep (closes : List ℚ) (period : ℕ) (st : List (Option ℚ) × ℚ × ℚ) (i : ℕ) :
    List (Option ℚ) × ℚ × ℚ :=
  let d := closes.getD i 0 - closes.getD (i - 1) 0
  let gain := if 0 < d then d else 0
  let loss := if d < 0 then |d| else 0
  let g := (st.2.1 * ((period : ℚ) - 1) + gain) / period
  let l := (st.2.2 * ((period : ℚ) - 1) + loss) / period
  (jsSet st.1 i (rsiVal g l), g, l)

/-- `calcRSI(closes, period = 14)` (Wilder smoothing). -/
def calcRSI (closes : List ℚ) (period : ℕ) : List (Option ℚ) :=
  let n := closes.length
  if n < period + 1 then List.replicate n none
  else
    let initG := rsiInitG closes period
    let initL := rsiInitL closes period
    let init := jsSet (List.replicate n none) period (rsiVal initG initL)
    (((List.range' (period + 1) (n - (period + 1))).foldl (rsiStep closes period)
      (init, initG, initL))).1

/-- The true-range series `tr` built by `calcATR`/`calcADX`. -/
def trueRange (highs lows closes : List ℚ) : List ℚ :=
  0 :: (List.range' 1 (closes.length - 1)).map (fun i =>
    max (highs.getD i 0 - lows.getD i 0)
      (max |highs.getD i 0 - closes.getD (i - 1) 0|
        |lows.getD i 0 - closes.getD (i - 1) 0|))

/-- `calcATR(highs, lows, closes, period = 14)`. -/
def calcATR (highs lows closes : List ℚ) (period : ℕ) : List (Option ℚ) :=
  calcSMA (trueRange highs lows closes) period

/-- `calcADX(highs, lows, closes, period = 14)` (the source's simplified ADX). -/
def calcADX (highs lows closes : List ℚ) (period : ℕ) : List (Option ℚ) :=
  let n := closes.length
  if n < period * 2 then List.replicate n none
  else
    let plusDM : List ℚ := 0 :: (List.range' 1 (n - 1)).map (fun i =>
      let up := highs.getD i 0 - highs.getD (i - 1) 0
      let down := lows.getD (i - 1) 0 - lows.getD i 0
      if down < up ∧ 0 < up then up else 0)
    let minusDM : List ℚ := 0 :: (List.range' 1 (n - 1)).map (fun i =>
      let up := highs.getD i 0 - highs.getD (i - 1) 0
      let down := lows.getD (i - 1) 0 - lows.getD i 0
      if up < down ∧ 0 < down then down else 0)
    let tr := trueRange highs lows closes
    let smoothTR := calcEMA tr period
    let smoothPlusDM := calcEMA plusDM period
    let smoothMinusDM := calcEMA minusDM period
    let dx : List ℚ := (List.range n).map (fun i =>
      match jsGet smoothTR i with
      | none => 0
      | some t =>
        if t = 0 then 0
        else
          -- when smoothTR[i] is non-null the two DM smoothings (same period,
          -- same length) are non-null as well
          let plusDI := (jsGet smoothPlusDM i).getD 0 / t * 100
          let minusDI := (jsGet smoothMinusDM i).getD 0 / t * 100
          let s := plusDI + minusDI
          if s = 0 then 0 else |plusDI - minusDI| / s * 100)
    calcEMA dx period

/-- `calcMACD(closes, fast = 12, slow = 26, signal = 9)`, returning
`(macd, signal, histogram)`. -/
def calcMACD (closes : List ℚ) (fast slow signal : ℕ) :
    List (Option ℚ) × List (Option ℚ) × List (Option ℚ) :=
  let emaFast := calcEMA closes fast
  let emaSlow := calcEMA closes slow
  let macdLine : List (Option ℚ) := (List.range closes.length).map (fun i =>
    match jsGet emaFast i, jsGet emaSlow i with
    | some a, some b => some (a - b)
    | _, _ => none)
  let validMACD := macdLine.filterMap id
  let signalLine := calcEMA validMACD signal
  let padded := List.replicate (macdLine.length - validMACD.length) (none : Option ℚ) ++ signalLine
  let histogram : List (Option ℚ) := (List.range macdLine.length).map (fun i =>
    match jsGet macdLine i, jsGet padded i with
    | some v, some p => some (v - p)
    | _, _ => none)
  (macdLine, padded, histogram)

/-- `calcBollingerBands(closes, period = 20, stdDev = 2)`, returning
`(upper, middle, lower)`; `Math.sqrt` is the parameter `sqrt`. -/
def calcBollingerBands (sqrt : ℚ → ℚ) (closes : List ℚ) (period : ℕ) (stdDev : ℚ) :
    List (Option ℚ) × List (Option ℚ) × List (Option ℚ) :=
  let sma := calcSMA closes period
  let ul := (List.range closes.length).map (fun i =>
    match jsGet sma i with
    | none => ((none : Option ℚ), (none : Option ℚ))
    | some m =>
      let sumSq := ((List.range' (i + 1 - period) period).map
        (fun j => (closes.getD j 0 - m) ^ 2)).sum
      let std := sqrt (sumSq / period)
      (some (m + stdDev * std), some (m - stdDev * std)))
  (ul.map Prod.fst, sma, ul.map Prod.snd)

-- ── Data rows and quant statistics (lines 283-308, 426-464) ──

/-- One OHLCV bar as assembled by `yahooChart` (the `date` is the millisecond
timestamp; the JS field `open` is `opn` here because `open` is a Lean
keyword). -/
structure Row where
  date : ℚ
  opn : ℚ
  high : ℚ
  low : ℚ
  close : ℚ
  volume : ℚ
deriving DecidableEq, Inhabited

/-- Result object of `quantStats`. The under-two-bars branch returns an object
without the `data_points`/`period_days` fields, hence the `Option` there. -/
structure Stats where
  total_return : Option ℚ
  annual_return : Option ℚ
  annual_vol : Option ℚ
  sharpe : Option ℚ
  max_drawdown : Option ℚ
  data_points : Option ℕ
  period_days : Option ℤ
deriving DecidableEq

/-- The running-peak drawdown step of `quantStats`
(`if (c > peak) peak = c; dd = (c - peak)/peak; if (dd < maxDD) maxDD = dd`). -/
def ddStep (st : ℚ × ℚ) (c : ℚ) : ℚ × ℚ :=
  let peak := if st.2 < c then c else st.2
  let d := (c - peak) / peak
  (if d < st.1 then d else st.1, peak)

/-- `quantStats(rows)`. `pow` models `Math.pow` and `sqrt` models `Math.sqrt`
(both transcendental, hence parameters). In `sharpe`, a `null` annual return
coerces to `0` under JS division, modelled by `Option.getD _ 0`. -/
def quantStats (pow : ℚ → ℚ → ℚ) (sqrt : ℚ → ℚ) (rows : List Row) : Stats :=
  if rows.length < 2 then ⟨none, none, none, none, none, none, none⟩
  else
    let closes := rows.map (·.close)
    let dailyReturns := (List.range' 1 (closes.length - 1)).map (fun i =>
      (closes.getD i 0 - closes.getD (i - 1) 0) / closes.getD (i - 1) 0)
    let nDays := ((rows.getLastD default).date - (rows.headD default).date)
      / (1000 * 60 * 60 * 24)
    let nYears := nDays / (365.25 : ℚ)
    let totalReturn := closes.getLastD 0 / closes.headD 0 - 1
    let annualReturn : Option ℚ :=
      if 0 < nYears then some (pow (1 + totalReturn) (1 / nYears) - 1) else none
    let mean := dailyReturns.sum / (dailyReturns.length : ℚ)
    let variance := (dailyReturns.map (fun b => (b - mean) ^ 2)).sum / (dailyReturns.length : ℚ)
    let annualVol := sqrt variance * sqrt 252
    let sharpe : Option ℚ :=
      if annualVol ≠ 0 then some (annualReturn.getD 0 / annualVol) else none
    let dd := closes.foldl ddStep (0, closes.headD 0)
    { total_return := some totalReturn
      annual_return := annualReturn
      annual_vol := some annualVol
      sharpe := sharpe
      max_drawdown := some dd.1
      data_points := some rows.length
      period_days := some (round nDays) }

-- ── Momentum scanner (lines 698-775) ──

/-- The helper `ret(days)` inside `momentumScan`. -/
def retAt (closes : List ℚ) (days : ℕ) : Option ℚ :=
  if closes.length ≤ days then none
  else
    let old := closes.getD (closes.length - 1 - days) 0
    if 0 < old then some (closes.getLastD 0 / old - 1) else none

/-- The 20-day volume z-score inside `momentumScan` (`0` when the standard
deviation is not positive). -/
def volZ (sqrt : ℚ → ℚ) (volumes : List ℚ) : ℚ :=
  let vol20 := volumes.drop (volumes.length - 20)
  let m := vol20.sum / (vol20.length : ℚ)
  let sd := sqrt ((vol20.map (fun v => (v - m) ^ 2)).sum / (vol20.length : ℚ))
  if 0 < sd then (volumes.getLastD 0 - m) / sd else 0

/-- 52-week-high proximity inside `momentumScan`. -/
def prox52 (closes : List ℚ) : ℚ :=
  let high := maxD (closes.drop (closes.length - 252))
  if 0 < high then closes.getLastD 0 / high else 0

/-- The weighted multi-timeframe composite return (`none` when no timeframe
return is available, which makes the scanner skip the symbol). -/
def compositeBase (r1m r3m r6m r12m : Option ℚ) : Option ℚ :=
  let parts : List (ℚ × ℚ) :=
    ([(r12m, (0.4 : ℚ)), (r6m, 0.3), (r3m, 0.2), (r1m, 0.1)]).filterMap
      (fun vw => vw.1.map (fun v => (v, vw.2)))
  if parts = [] then none
  else some ((parts.map (fun vw => vw.1 * vw.2)).sum / (parts.map Prod.snd).sum)

/-- The volume z-score clamp `Math.max(0, Math.min(3, volZ))`. -/
def clampZ (z : ℚ) : ℚ := max 0 (min 3 z)

/-- The momentum score: composite return plus volume, 52-week-proximity, ADX
and RSI adjustments. -/
def momentumScore (base z prox rsi adx : ℚ) : ℚ :=
  base + clampZ z * (0.15 : ℚ) + (prox - (0.95 : ℚ)) * 2
    + (if (20 : ℚ) ≤ adx then (0.05 : ℚ) else 0)
    - (if (80 : ℚ) < rsi ∨ rsi < (20 : ℚ) then (0.05 : ℚ) else 0)

/-- One entry of the `momentumScan` result list. -/
structure Pick where
  ticker : String
  price : ℚ
  score : ℚ
  r1m : Option ℚ
  r3m : Option ℚ
  r6m : Option ℚ
  r12m : Option ℚ
  rsi : ℚ
  adx : ℚ
  vol_z : ℚ
  prox_52w : ℚ
  name : String
deriving DecidableEq

/-- The per-symbol body of `momentumScan`'s loop; `none` is `continue`
(missing data, short history, sub-$5 price, or no computable return). -/
def momentumCompute (sqrt : ℚ → ℚ) (names : String → Option String) (sym : String)
    (rowsO : Option (List Row)) : Option Pick :=
  match rowsO with
  | none => none
  | some rows =>
    if rows.length < 60 then none
    else
      let closes := rows.map (·.close)
      let volumes := rows.map (·.volume)
      let price := closes.getLastD 0
      if price < 5 then none
      else
        let r1m := retAt closes 21
        let r3m := retAt closes 63
        let r6m := retAt closes 126
        let r12m := retAt closes 252
        let z := volZ sqrt volumes
        let latestRSI := latestNonNull (calcRSI closes 14) 50
        let latestADX :=
          latestNonNull (calcADX (rows.map (·.high)) (rows.map (·.low)) closes 14) 0
        let prox := prox52 closes
        match compositeBase r1m r3m r6m r12m with
        | none => none
        | some base =>
          some { ticker := sym
                 price := price
                 score := momentumScore base z prox latestRSI latestADX
                 r1m := r1m, r3m := r3m, r6m := r6m, r12m := r12m
                 rsi := latestRSI
                 adx := latestADX
                 vol_z := toFixed1 z
                 prox_52w := toFixed1 (prox * 100)
                 name := (names sym).getD sym }

/-- Descending-score comparison used by `results.sort((a, b) => b.score - a.score)`. -/
def scoreGE (a b : Pick) : Prop := b.score ≤ a.score

instance : DecidableRel scoreGE := fun a b => inferInstanceAs (Decidable (b.score ≤ a.score))

instance : IsTotal Pick scoreGE := ⟨fun a b => le_total b.score a.score⟩

instance : IsTrans Pick scoreGE :=
  ⟨fun _ _ _ hab hbc => le_trans hbc hab⟩

/-- `momentumScan(n = 10)`: per-symbol computation over the watchlist, a
stable descending sort by score, and the top `n`. -/
def momentumScan (sqrt : ℚ → ℚ) (fetch : String → Option (List Row))
    (names : String → Option String) (ws : List String) (n : ℕ) : List Pick :=
  (List.insertionSort scoreGE
      (ws.filterMap (fun sym => momentumCompute sqrt names sym (fetch sym)))).take n

-- ── Dislocation detector (lines 793-826) ──

/-- The fields of a batch quote that `dislocations` reads. -/
structure Quote where
  price : Option ℚ
  pct : Option ℚ
  name : Option String
  forwardPE : Option ℚ
  trailingPE : Option ℚ
  marketCap : Option ℚ
deriving DecidableEq

/-- One entry of the `dislocations` result list. -/
structure DPick where
  ticker : String
  name : String
  score : ℚ
  pe : ℚ
  market_cap : ℚ
  price : ℚ
  change_pct : Option ℚ
deriving DecidableEq

/-- The per-symbol body of `dislocations`' loop (`none` is `continue`). -/
def dislocCompute (sym : String) (qO : Option Quote) : Option DPick :=
  match qO with
  | none => none
  | some q =>
    match q.price with
    | none => none
    | some price =>
      if price = 0 then none
      else
        match jsOrQ q.forwardPE q.trailingPE with
        | none => none
        | some pe =>
          if pe = 0 ∨ pe ≤ 0 ∨ pe < 2 ∨ 80 < pe then none
          else
            match q.marketCap with
            | none => none
            | some mc =>
              if mc = 0 ∨ mc ≤ 0 ∨ (500000000000 : ℚ) < mc then none  -- 5e11
              else
                some { ticker := sym
                       name := q.name.getD sym
                       score := 1 / pe
                       pe := toFixed1 pe
                       market_cap := toFixed1 (mc / (1000000000 : ℚ))  -- 1e9
                       price := price
                       change_pct := q.pct.map toFixed2 }

/-- Descending-score comparison for `DPick`. -/
def dScoreGE (a b : DPick) : Prop := b.score ≤ a.score

instance : DecidableRel dScoreGE := fun a b => inferInstanceAs (Decidable (b.score ≤ a.score))

instance : IsTotal DPick dScoreGE := ⟨fun a b => le_total b.score a.score⟩

instance : IsTrans DPick dScoreGE :=
  ⟨fun _ _ _ hab hbc => le_trans hbc hab⟩

/-- `dislocations(n = 10)`. -/
def dislocations (quotes : String → Option Quote) (ws : List String) (n : ℕ) : List DPick :=
  (List.insertionSort dScoreGE (ws.filterMap (fun sym => dislocCompute sym (quotes sym)))).take n

-- ── Moonshot radar (lines 996-1036) ──

/-- One entry of the `findMoonshots` result list (`volMult` is the source's
volume-to-previous-day multiple field). -/
structure MoonPick where
  ticker : String
  name : String
  price : ℚ
  pct : ℚ
  volMult : ℚ
deriving DecidableEq

/-- The per-symbol body of `findMoonshots`' loop (`none` is `continue`). -/
def moonshotCompute (names : String → Option String) (sym : String)
    (rowsO : Option (List Row)) : Option MoonPick :=
  match rowsO with
  | none => none
  | some rows =>
    if rows.length < 10 then none
    else
      let closes := rows.map (·.close)
      let volumes := rows.map (·.volume)
      let price := closes.getLastD 0
      let prevPrice := closes.getD (closes.length - 2) 0
      let pct := (price - prevPrice) / prevPrice * 100
      let pv := volumes.getD (volumes.length - 2) 0
      let prevVol := if pv = 0 then 1 else pv
      let vr := volumes.getLastD 0 / prevVol
      let high10d := maxD (closes.drop (closes.length - 10))
      let nearBreakout := (0.95 : ℚ) * high10d ≤ price
      if 5 ≤ price ∧ |pct| ≤ 4 ∧ 2 ≤ vr ∧ nearBreakout then
        some { ticker := sym
               name := (names sym).getD sym
               price := price
               pct := toFixed2 pct
               volMult := toFixed1 vr }
      else none

/-- Descending comparison by the (rounded) volume multiple. -/
def mScoreGE (a b : MoonPick) : Prop := b.volMult ≤ a.volMult

instance : DecidableRel mScoreGE := fun a b => inferInstanceAs (Decidable (b.volMult ≤ a.volMult))

instance : IsTotal MoonPick mScoreGE := ⟨fun a b => le_total b.volMult a.volMult⟩

instance : IsTrans MoonPick mScoreGE :=
  ⟨fun _ _ _ hab hbc => le_trans hbc hab⟩

/-- `findMoonshots(limit = 5)`. -/
def findMoonshots (fetch : String → Option (List Row)) (names : String → Option String)
    (ws : List String) (limit : ℕ) : List MoonPick :=
  (List.insertionSort mScoreGE
      (ws.filterMap (fun sym => moonshotCompute names sym (fetch sym)))).take limit

-- ── RSI backtest (lines 840-886) ──

inductive Side where
  | buy
  | sell
deriving DecidableEq

/-- One entry of the backtest trade log. -/
structure Trade where
  ty : Side
  price : ℚ
  date : ℚ
  rsi : ℚ
deriving DecidableEq

/-- The running simulator state of `backtestRSI`. -/
structure BTState where
  position : ℚ
  cash : ℚ
  trades : ℕ
  log : List Trade
deriving DecidableEq

/-- One iteration of the `backtestRSI` loop at bar `i`. -/
def btStep (closes : List ℚ) (rsis : List (Option ℚ)) (dates : List ℚ)
    (buyT sellT : ℚ) (st : BTState) (i : ℕ) : BTState :=
  match jsGet rsis i with
  | none => st
  | some r =>
    if r < buyT ∧ st.position = 0 then
      { position := st.cash / closes.getD i 0
        cash := 0
        trades := st.trades + 1
        log := st.log ++ [⟨Side.buy, closes.getD i 0, dates.getD i 0, r⟩] }
    else if sellT < r ∧ 0 < st.position then
      { position := 0
        cash := st.position * closes.getD i 0
        trades := st.trades + 1
        log := st.log ++ [⟨Side.sell, closes.getD i 0, dates.getD i 0, r⟩] }
    else st

/-- The whole `backtestRSI` loop (bars `1 … closes.length - 1`), starting
flat with unit capital. -/
def btLoop (closes : List ℚ) (rsis : List (Option ℚ)) (dates : List ℚ)
    (buyT sellT : ℚ) : BTState :=
  (List.range' 1 (closes.length - 1)).foldl (btStep closes rsis dates buyT sellT)
    ⟨0, 1, 0, []⟩

/-- Result object of `backtestRSI` (the insufficient-data error object is
`none`). -/
structure BTResult where
  ticker : String
  total_return : ℚ
  buy_hold_return : ℚ
  trades : ℕ
  latest_rsi : Option ℚ
  start_date : ℚ
  end_date : ℚ
  last_trades : List Trade
deriving DecidableEq

/-- The state of the `backtestRSI` loop after its first `k` iterations
(used to state invariants that hold "at all times"). -/
def btLoopK (closes : List ℚ) (rsis : List (Option ℚ)) (dates : List ℚ)
    (buyT sellT : ℚ) (k : ℕ) : BTState :=
  ((List.range' 1 (closes.length - 1)).take k).foldl (btStep closes rsis dates buyT sellT)
    ⟨0, 1, 0, []⟩

/-- Strict BUY/SELL alternation check for a trade log: `some s` means the log
alternates, starts with a BUY, and the next expected entry is `s`; `none`
means the alternation is broken somewhere. -/
def altExpected (l : List Trade) : Option Side :=
  l.foldl
    (fun e t =>
      match e with
      | some s =>
        if t.ty = s then
          some (match s with | Side.buy => Side.sell | Side.sell => Side.buy)
        else none
      | none => none)
    (some Side.buy)

/-- `backtestRSI(ticker, buyThreshold = 30, sellThreshold = 70)` on an
already-fetched series. A still-open position is force-liquidated at the
final close without a trade-log entry. -/
def backtestRSI (ticker : String) (rows : List Row) (buyT sellT : ℚ) : Option BTResult :=
  if rows.length < 50 then none
  else
    let closes := rows.map (·.close)
    let rsi := calcRSI closes 14
    let fin := btLoop closes rsi (rows.map (·.date)) buyT sellT
    let cash := if 0 < fin.position then fin.position * closes.getLastD 0 else fin.cash
    some { ticker := ticker
           total_return := cash - 1
           buy_hold_return := closes.getLastD 0 / closes.headD 0 - 1
           trades := fin.trades
           latest_rsi := (rsi.filterMap id).getLast?
           start_date := (rows.headD default).date
           end_date := (rows.getLastD default).date
           last_trades := fin.log.drop (fin.log.length - 6) }

-- ── Concrete scenario data for witnesses and counterexamples ──

/-- 60 daily bars, flat at 100, except a one-day spike to 200 at bar 30; the
final bar has 101× volume. All four lookback returns are 0 (same as a flat
series), but the spike halves the 52-week-high proximity. -/
def rowsSpike : List Row := (List.range 60).map (fun i =>
  let c : ℚ := if i = 30 then 200 else 100
  { date := i, opn := c, high := c, low := c, close := c,
    volume := if i = 59 then 101000 else 1000 })

/-- 60 daily bars, completely flat at 100 with constant volume. -/
def rowsFlat60 : List Row := (List.range 60).map (fun i =>
  { date := i, opn := 100, high := 100, low := 100, close := 100, volume := 1000 })

/-- 60 flat bars with a single final-bar volume burst (same closes as
`rowsFlat60`, so every price-derived quantity matches it). -/
def rowsFlatBurst : List Row := (List.range 60).map (fun i =>
  { date := i, opn := 100, high := 100, low := 100, close := 100,
    volume := if i = 59 then 101000 else 1000 })

/-- Chart oracle for the momentum-ranking counterexample. -/
def fetchCX3 : String → Option (List Row) := fun s =>
  if s = "AAA" then some rowsSpike else if s = "BBB" then some rowsFlat60 else none

/-- Chart oracle for the volume-z witness scenario (two flat symbols that
differ only in final-bar volume). -/
def fetchW3 : String → Option (List Row) := fun s =>
  if s = "CCC" then some rowsFlatBurst else if s = "DDD" then some rowsFlat60 else none

/-- Chart oracle with one good symbol and every other symbol failing. -/
def fetchW7 : String → Option (List Row) := fun s =>
  if s = "GOOD" then some rowsFlatBurst else none

/-- Quote-name oracle that knows no display names. -/
def noNames : String → Option String := fun _ => none

/-- 50 bars: closes fall 100, 99, …, 86 over the first 15 bars and stay at 86
afterwards, so RSI(14) signals a buy at bar 14 and never signals a sell. -/
def rowsDecline : List Row := (List.range 50).map (fun i =>
  let c : ℚ := if i ≤ 14 then 100 - i else 86
  { date := i, opn := c, high := c, low := c, close := c, volume := 1000 })

/-- 50 completely flat bars (RSI stays 100; no trade ever triggers). -/
def rowsFlat50 : List Row := (List.range 50).map (fun i =>
  { date := i, opn := 100, high := 100, low := 100, close := 100, volume := 1000 })

/-- A quote sitting exactly on the $500B market-cap boundary. -/
def qMega : Quote :=
  { price := some 50, pct := none, name := none,
    forwardPE := some 10, trailingPE := none, marketCap := some (500000000000 : ℚ) }

/-- Quote oracle for the market-cap boundary counterexample. -/
def quotesCX4 : String → Option Quote := fun s => if s = "MEGA" then some qMega else none

/-- An ordinary value quote (PE 10, $1B market cap). -/
def qPlain : Quote :=
  { price := some 50, pct := none, name := none,
    forwardPE := some 10, trailingPE := none, marketCap := some (1000000000 : ℚ) }

/-- A quote filtered out by the PE ceiling (PE 90). -/
def qExpensive : Quote :=
  { price := some 50, pct := none, name := none,
    forwardPE := some 90, trailingPE := none, marketCap := some (1000000000 : ℚ) }

/-- Quote oracle for the dislocation-filter witness. -/
def quotesW4 : String → Option Quote := fun s =>
  if s = "VAL" then some qPlain else if s = "EXP" then some qExpensive else none


/-- A strictly increasing 16-bar close series. -/
def incr16 : List ℚ := (List.range 16).map (fun i => (i : ℚ) + 1)

/-- An arbitrary mixed 16-bar close series. -/
def mixed16 : List ℚ := [5, 3, 8, 1, 9, 2, 7, 4, 6, 10, 3, 5, 8, 2, 7, 9]

-- ── Helper lemmas ──

theorem foldl_inv {α β : Type _} (f : β → α → β) (P : β → Prop) :
    ∀ (l : List α) (b : β), P b → (∀ b' a, a ∈ l → P b' → P (f b' a)) → P (l.foldl f b)
  | [], b, h0, _ => h0
  | a :: l, b, h0, hstep =>
    foldl_inv f P l (f b a) (hstep b a (List.mem_cons_self a l) h0)
      (fun b' x hx hb => hstep b' x (List.mem_cons_of_mem a hx) hb)

theorem jsGet_replicate (n i : ℕ) : jsGet (List.replicate n (none : Option ℚ)) i = none := by
  unfold jsGet
  rw [List.get?_eq_getElem?, List.getElem?_replicate]
  split <;> rfl

theorem jsSet_lt {l : List (Option ℚ)} {i : ℕ} (h : i < l.length) (v : ℚ) :
    jsSet l i v = l.set i (some v) := by
  unfold jsSet
  rw [if_pos h]

theorem jsSet_of_length_le {l : List (Option ℚ)} {i : ℕ} (h : l.length ≤ i) (v : ℚ) :
    jsSet l i v = l ++ List.replicate (i - l.length) none ++ [some v] := by
  unfold jsSet
  rw [if_neg (by omega)]

theorem length_jsSet_lt {l : List (Option ℚ)} {i : ℕ} (h : i < l.length) (v : ℚ) :
    (jsSet l i v).length = l.length := by
  rw [jsSet_lt h]
  exact List.length_set l i (some v)

theorem jsGet_jsSet_self {l : List (Option ℚ)} {i : ℕ} (h : i < l.length) (v : ℚ) :
    jsGet (jsSet l i v) i = some v := by
  rw [jsSet_lt h]
  unfold jsGet
  rw [List.get?_eq_getElem?, List.getElem?_set_self h]
  rfl

theorem jsGet_jsSet_ne {l : List (Option ℚ)} {i j : ℕ} (hij : i ≠ j) (h : i < l.length) (v : ℚ) :
    jsGet (jsSet l i v) j = jsGet l j := by
  rw [jsSet_lt h]
  unfold jsGet
  rw [List.get?_eq_getElem?, List.get?_eq_getElem?, List.getElem?_set_ne hij]

theorem mem_jsSet {l : List (Option ℚ)} {i : ℕ} {v : ℚ} {x : Option ℚ}
    (hx : x ∈ jsSet l i v) : x ∈ l ∨ x = none ∨ x = some v := by
  unfold jsSet at hx
  split at hx
  · rcases List.mem_or_eq_of_mem_set hx with h | h
    · exact Or.inl h
    · exact Or.inr (Or.inr h)
  · rcases List.mem_append.1 hx with h | h
    · rcases List.mem_append.1 h with h | h
      · exact Or.inl h
      · exact Or.inr (Or.inl (List.eq_of_mem_replicate h))
    · rcases List.mem_singleton.1 h with rfl
      exact Or.inr (Or.inr rfl)

theorem filterMap_id_replicate_none (n : ℕ) :
    (List.replicate n (none : Option ℚ)).filterMap id = [] := by
  induction n with
  | zero => rfl
  | succ m ih => simpa [List.replicate_succ] using ih

-- ── C1: indicator behaviour on series shorter than the period ──

theorem calcSMA_short {data : List ℚ} {p : ℕ} (h : data.length < p) :
    calcSMA data p = List.replicate data.length none := by
  unfold calcSMA
  rw [show data.length - (p - 1) = 0 from by omega]
  rfl

theorem calcEMA_short {data : List ℚ} {p : ℕ} (h : data.length < p) :
    calcEMA data p = List.replicate (p - 1) none ++ [some (data.sum / p)] := by
  unfold calcEMA
  rw [show data.length - p = 0 from by omega]
  dsimp only
  rw [List.range'_zero, List.foldl_nil]
  dsimp only
  rw [List.take_of_length_le (le_of_lt h),
    jsSet_of_length_le (by rw [List.length_replicate]; omega),
    List.length_replicate, ← List.replicate_add,
    show data.length + (p - 1 - data.length) = p - 1 from by omega]

theorem calcRSI_short {closes : List ℚ} {p : ℕ} (h : closes.length < p + 1) :
    calcRSI closes p = List.replicate closes.length none := by
  unfold calcRSI
  rw [if_pos h]

theorem calcADX_short {highs lows closes : List ℚ} {p : ℕ} (h : closes.length < p * 2) :
    calcADX highs lows closes p = List.replicate closes.length none := by
  unfold calcADX
  rw [if_pos h]

theorem trueRange_length {highs lows closes : List ℚ} (h : 1 ≤ closes.length) :
    (trueRange highs lows closes).length = closes.length := by
  simp [trueRange]
  omega

theorem calcATR_short {highs lows closes : List ℚ} {p : ℕ}
    (h1 : 1 ≤ closes.length) (h : closes.length < p) :
    calcATR highs lows closes p = List.replicate closes.length none := by
  unfold calcATR
  rw [calcSMA_short (by rw [trueRange_length h1]; exact h), trueRange_length h1]


theorem map_range_const {α : Type _} (n : ℕ) (f : ℕ → α) (c : α)
    (h : ∀ i < n, f i = c) : (List.range n).map f = List.replicate n c := by
  refine List.eq_replicate_iff.2 ⟨by simp, fun b hb => ?_⟩
  obtain ⟨i, hi, hfi⟩ := List.mem_map.1 hb
  rw [← hfi]
  exact h i (List.mem_range.1 hi)

theorem calcBollingerBands_short {closes : List ℚ} {p : ℕ} {sd : ℚ} {sqrt : ℚ → ℚ}
    (h : closes.length < p) :
    calcBollingerBands sqrt closes p sd =
      (List.replicate closes.length none, List.replicate closes.length none,
        List.replicate closes.length none) := by
  unfold calcBollingerBands
  rw [calcSMA_short h]
  dsimp only
  rw [map_range_const _ _ ((none : Option ℚ), (none : Option ℚ))
      (fun i _ => by rw [jsGet_replicate])]
  simp [List.map_replicate]

theorem calcMACD_short {closes : List ℚ} {fast slow sg : ℕ}
    (hn : closes.length < slow) (hsg : 1 ≤ sg) :
    calcMACD closes fast slow sg =
      (List.replicate closes.length none,
        List.replicate (closes.length + (sg - 1)) none ++ [some 0],
        List.replicate closes.length none) := by
  unfold calcMACD
  dsimp only
  have hget : ∀ i < closes.length, jsGet (calcEMA closes slow) i = none := by
    intro i hi
    unfold jsGet
    rw [calcEMA_short hn, List.get?_eq_getElem?, List.getElem?_append,
      if_pos (by rw [List.length_replicate]; omega),
      List.getElem?_replicate, if_pos (by omega)]
    rfl
  rw [map_range_const _ _ (none : Option ℚ) (fun i hi => by
    rw [hget i hi]
    cases jsGet (calcEMA closes fast) i <;> rfl)]
  rw [filterMap_id_replicate_none, List.length_replicate, List.length_nil, Nat.sub_zero]
  rw [show calcEMA [] sg = List.replicate (sg - 1) none ++ [some 0] from by
    rw [calcEMA_short (by rw [List.length_nil]; omega)]
    simp]
  rw [map_range_const _ _ (none : Option ℚ) (fun i hi => by rw [jsGet_replicate])]
  rw [← List.append_assoc, ← List.replicate_add]

unseal Rat.add Rat.mul Rat.sub Rat.inv Rat.ofScientific in
/-- **C1** (counterexample). The claim asserts that for `n < p` every
indicator returns an all-marker array of length exactly `n`; but
`calcEMA([1,2], 3)` returns `[null, null, 1]` — length 3, with a number at
index 2 — because the JS assignment `result[period-1] = ema` extends the
array past the input length. -/
theorem c1_counterexample :
    ¬((calcEMA [1, 2] 3).length = 2 ∧ ∀ x ∈ calcEMA [1, 2] 3, x = none) := by
  decide

/-- **C1** (amended). For any period `p` and any series of length `n < p`:
SMA, RSI and ADX return an all-marker array of length `n`, ATR does so for
nonempty input, Bollinger returns three all-marker arrays of length `n`, and
none of them throws; but EMA returns an array of length `p` whose final entry
holds `sum/period` computed over the short series, and MACD (for `n` below
the slow period, with a positive signal period) returns a length-`n`
all-marker `macd` and `histogram` together with a signal line of length
`n + signal` whose final entry is `0`. -/
theorem c1_short_input_amended (p fast slow sg : ℕ) (sd : ℚ) (sqrt : ℚ → ℚ)
    (data highs lows closes : List ℚ)
    (hd : data.length < p) (hc : closes.length < p)
    (hslow : closes.length < slow) (hsg : 1 ≤ sg) :
    calcSMA data p = List.replicate data.length none ∧
    calcRSI closes p = List.replicate closes.length none ∧
    calcADX highs lows closes p = List.replicate closes.length none ∧
    (1 ≤ closes.length → calcATR highs lows closes p = List.replicate closes.length none) ∧
    calcBollingerBands sqrt closes p sd =
      (List.replicate closes.length none, List.replicate closes.length none,
        List.replicate closes.length none) ∧
    calcEMA data p = List.replicate (p - 1) none ++ [some (data.sum / p)] ∧
    calcMACD closes fast slow sg =
      (List.replicate closes.length none,
        List.replicate (closes.length + (sg - 1)) none ++ [some 0],
        List.replicate closes.length none) :=
  ⟨calcSMA_short hd, calcRSI_short (by omega), calcADX_short (by omega),
    fun h1 => calcATR_short h1 hc, calcBollingerBands_short hc,
    calcEMA_short hd, calcMACD_short hslow hsg⟩

unseal Rat.add Rat.mul Rat.sub Rat.inv Rat.ofScientific in
/-- Witness for the amended C1 at `p = 3` on the two-bar series `[1, 2]`
(resp. `[4, 5]` with highs `[9, 9]` and lows `[1, 1]`), with the default MACD
parameters `12/26/9`. -/
theorem c1_witness :
    (([1, 2] : List ℚ).length < 3 ∧ ([4, 5] : List ℚ).length < 3 ∧
      ([4, 5] : List ℚ).length < 26 ∧ 1 ≤ 9) ∧
    (calcSMA [1, 2] 3 = List.replicate 2 none ∧
      calcRSI [4, 5] 3 = List.replicate 2 none ∧
      calcADX [9, 9] [1, 1] [4, 5] 3 = List.replicate 2 none ∧
      (1 ≤ ([4, 5] : List ℚ).length →
        calcATR [9, 9] [1, 1] [4, 5] 3 = List.replicate 2 none) ∧
      calcBollingerBands ratSqrt [4, 5] 3 2 =
        (List.replicate 2 none, List.replicate 2 none, List.replicate 2 none) ∧
      calcEMA [1, 2] 3 = List.replicate 2 none ++ [some (([1, 2] : List ℚ).sum / 3)] ∧
      calcMACD [4, 5] 12 26 9 =
        (List.replicate 2 none, List.replicate (2 + 8) none ++ [some 0],
          List.replicate 2 none)) :=
  ⟨by decide,
    c1_short_input_amended 3 12 26 9 2 ratSqrt [1, 2] [9, 9] [1, 1] [4, 5]
      (by decide) (by decide)
      (by decide) (by decide)⟩


-- ── C4: dislocation-scan filters and ordering ──

unseal Rat.add Rat.mul Rat.sub Rat.inv Rat.ofScientific in
/-- **C4** (counterexample). The claim requires market cap strictly below
$500B, but the source filter is `mc > 5e11 → skip`, so a symbol whose market
cap is exactly `5e11` passes the filter and is returned (here with the
`market_cap` field reported as `500` billions). -/
theorem c4_counterexample :
    quotesCX4 "MEGA" = some qMega ∧ qMega.marketCap = some (500000000000 : ℚ) ∧
    (dislocations quotesCX4 ["MEGA"] 10).map (fun p => (p.ticker, p.market_cap)) =
      [("MEGA", 500)] := by
  decide

/-- **C4** (amended). Every symbol returned by the dislocation scan comes from
a quote whose effective P/E (`forwardPE || trailingPE`) lies in `[2, 80]` and
whose market cap is positive and at most `5e11` (the boundary itself is
admitted); its score is `1/PE` computed from the unrounded P/E; and the output
is ordered by score descending. -/
theorem c4_amended (quotes : String → Option Quote) (ws : List String) (n : ℕ) :
    (dislocations quotes ws n).Sorted dScoreGE ∧
    ∀ p ∈ dislocations quotes ws n, ∃ s q pe mc,
      s ∈ ws ∧ quotes s = some q ∧ p.ticker = s ∧
      jsOrQ q.forwardPE q.trailingPE = some pe ∧
      2 ≤ pe ∧ pe ≤ 80 ∧
      q.marketCap = some mc ∧ 0 < mc ∧ mc ≤ (500000000000 : ℚ) ∧
      p.score = 1 / pe := by
  constructor
  · exact List.Pairwise.sublist (List.take_sublist n _)
      (List.sorted_insertionSort dScoreGE _)
  · intro p hp
    have hp' : p ∈ ws.filterMap (fun sym => dislocCompute sym (quotes sym)) :=
      (List.perm_insertionSort dScoreGE _).subset (List.mem_of_mem_take hp)
    obtain ⟨s, hs, hcomp⟩ := List.mem_filterMap.1 hp'
    unfold dislocCompute at hcomp
    split at hcomp
    · exact absurd hcomp (by simp)
    rename_i q hq
    split at hcomp
    · exact absurd hcomp (by simp)
    rename_i price hprice
    split at hcomp
    · exact absurd hcomp (by simp)
    split at hcomp
    · exact absurd hcomp (by simp)
    rename_i pe hpe
    split at hcomp
    · exact absurd hcomp (by simp)
    rename_i hpeok
    split at hcomp
    · exact absurd hcomp (by simp)
    rename_i mc hmc
    split at hcomp
    · exact absurd hcomp (by simp)
    rename_i hmcok
    push_neg at hpeok hmcok
    have hpfields := Option.some.inj hcomp
    refine ⟨s, q, pe, mc, hs, hq, ?_, hpe, ?_, ?_, hmc, ?_, ?_, ?_⟩
    · rw [← hpfields]
    · exact hpeok.2.2.1
    · exact hpeok.2.2.2
    · exact hmcok.2.1
    · exact hmcok.2.2
    · rw [← hpfields]

unseal Rat.add Rat.mul Rat.sub Rat.inv Rat.ofScientific in
/-- Witness for the amended C4: with a PE-10/$1B quote (`VAL`) and a PE-90
quote (`EXP`), the scan returns the `VAL` pick and the amended properties are
established for it. -/
theorem c4_witness :
    (⟨"VAL", "VAL", 1 / 10, 10, 1, 50, none⟩ : DPick) ∈
      dislocations quotesW4 ["VAL", "EXP"] 10 ∧
    (∃ s q pe mc, s ∈ ["VAL", "EXP"] ∧ quotesW4 s = some q ∧
      (⟨"VAL", "VAL", 1 / 10, 10, 1, 50, none⟩ : DPick).ticker = s ∧
      jsOrQ q.forwardPE q.trailingPE = some pe ∧
      2 ≤ pe ∧ pe ≤ 80 ∧
      q.marketCap = some mc ∧ 0 < mc ∧ mc ≤ (500000000000 : ℚ) ∧
      (⟨"VAL", "VAL", 1 / 10, 10, 1, 50, none⟩ : DPick).score = 1 / pe) :=
  ⟨by decide, (c4_amended quotesW4 ["VAL", "EXP"] 10).2 _ (by decide)⟩

-- ── C6: quantStats on a flat series ──

theorem map_range'_const {α : Type _} (s n : ℕ) (f : ℕ → α) (c : α)
    (h : ∀ i, s ≤ i → i < s + n → f i = c) :
    (List.range' s n).map f = List.replicate n c := by
  refine List.eq_replicate_iff.2 ⟨by simp, fun b hb => ?_⟩
  obtain ⟨i, hi, hfi⟩ := List.mem_map.1 hb
  rw [← hfi]
  have hm := List.mem_range'_1.1 hi
  exact h i hm.1 hm.2

theorem getD_replicate_of_lt {α : Type _} {c d : α} {n i : ℕ} (h : i < n) :
    (List.replicate n c).getD i d = c := by
  rw [List.getD_eq_getElem?_getD, List.getElem?_replicate, if_pos h]
  rfl

theorem getLastD_replicate {α : Type _} {c d : α} {n : ℕ} (h : 1 ≤ n) :
    (List.replicate n c).getLastD d = c := by
  rw [List.getLastD_eq_getLast?, List.getLast?_eq_getElem?, List.length_replicate,
    List.getElem?_replicate, if_pos (by omega)]
  rfl

theorem headD_replicate {α : Type _} {c d : α} {n : ℕ} (h : 1 ≤ n) :
    (List.replicate n c).headD d = c := by
  cases n with
  | zero => omega
  | succ m => rw [List.replicate_succ]; rfl

theorem ddStep_flat (c : ℚ) : ddStep (0, c) c = (0, c) := by
  unfold ddStep
  rw [if_neg (lt_irrefl c)]
  dsimp only
  rw [sub_self, zero_div, if_neg (lt_irrefl 0)]

theorem dd_fold_flat (c : ℚ) : ∀ m : ℕ,
    (List.replicate m c).foldl ddStep (0, c) = (0, c)
  | 0 => rfl
  | m + 1 => by rw [List.replicate_succ, List.foldl_cons, ddStep_flat]; exact dd_fold_flat c m

/-- **C6.** On any series of at least 2 bars whose closes are all equal to a
positive constant, `quantStats` reports zero total return, zero maximum
drawdown, zero annualised volatility and a `null` Sharpe ratio, without
crashing.  `pow` is arbitrary (the annual return never feeds the reported
fields) and the square-root model only needs `sqrt 0 = 0`, which holds for
`Math.sqrt`. -/
theorem c6_quantStats_flat (pow : ℚ → ℚ → ℚ) (sqrt : ℚ → ℚ) (rows : List Row) (c : ℚ)
    (h2 : 2 ≤ rows.length) (hflat : ∀ r ∈ rows, r.close = c) (hc : 0 < c)
    (hs : sqrt 0 = 0) :
    (quantStats pow sqrt rows).total_return = some 0 ∧
    (quantStats pow sqrt rows).max_drawdown = some 0 ∧
    (quantStats pow sqrt rows).annual_vol = some 0 ∧
    (quantStats pow sqrt rows).sharpe = none := by
  have hcloses : rows.map (·.close) = List.replicate rows.length c := by
    refine List.eq_replicate_iff.2 ⟨by simp, fun b hb => ?_⟩
    obtain ⟨r, hr, hrb⟩ := List.mem_map.1 hb
    rw [← hrb]
    exact hflat r hr
  unfold quantStats
  rw [if_neg (by omega), hcloses]
  dsimp only
  rw [List.length_replicate]
  rw [map_range'_const 1 (rows.length - 1) _ (0 : ℚ) (fun i h1 hin => by
    rw [getD_replicate_of_lt (show i < rows.length by omega),
      getD_replicate_of_lt (show i - 1 < rows.length by omega), sub_self, zero_div])]
  rw [List.sum_replicate, smul_zero, zero_div, List.map_replicate]
  rw [show ((0 : ℚ) - 0) ^ 2 = 0 by norm_num]
  rw [List.sum_replicate, smul_zero, zero_div, hs, zero_mul]
  rw [getLastD_replicate (by omega), headD_replicate (by omega), div_self (ne_of_gt hc),
    sub_self]
  rw [dd_fold_flat c rows.length]
  refine ⟨rfl, rfl, rfl, ?_⟩
  simp

unseal Rat.add Rat.mul Rat.sub Rat.inv Rat.ofScientific in
/-- Witness for C6 on two flat bars at close 100 (square root modelled by
`ratSqrt`, power by an arbitrary function). -/
theorem c6_witness :
    (2 ≤ rowsFlat50.length ∧ (∀ r ∈ rowsFlat50, r.close = 100) ∧ (0 : ℚ) < 100 ∧
      ratSqrt 0 = 0) ∧
    ((quantStats (fun a _ => a) ratSqrt rowsFlat50).total_return = some 0 ∧
      (quantStats (fun a _ => a) ratSqrt rowsFlat50).max_drawdown = some 0 ∧
      (quantStats (fun a _ => a) ratSqrt rowsFlat50).annual_vol = some 0 ∧
      (quantStats (fun a _ => a) ratSqrt rowsFlat50).sharpe = none) :=
  ⟨⟨by decide, by decide, by decide, by decide⟩,
    c6_quantStats_flat (fun a _ => a) ratSqrt rowsFlat50 100 (by decide) (by decide)
      (by decide) (by decide)⟩

-- ── C5 and C8: RSI value properties ──

theorem rsiVal_zero_loss (g : ℚ) : rsiVal g 0 = 100 := by
  unfold rsiVal
  rw [if_pos rfl]

theorem rsiVal_bounds {g l : ℚ} (hg : 0 ≤ g) (hl : 0 ≤ l) :
    0 ≤ rsiVal g l ∧ rsiVal g l ≤ 100 := by
  unfold rsiVal
  split
  · norm_num
  · rename_i hne
    have hratio : 0 ≤ g / l := div_nonneg hg hl
    have h1 : (0 : ℚ) < 1 + g / l := by linarith
    have h2 : 100 / (1 + g / l) ≤ 100 := div_le_self (by norm_num) (by linarith)
    have h3 : (0 : ℚ) < 100 / (1 + g / l) := div_pos (by norm_num) h1
    constructor <;> linarith

/-- **C5.** On a strictly increasing close series long enough for RSI
(`n ≥ period + 1`, `period ≥ 1`), the running average loss is identically
zero, so the `avgLoss == 0` guard fires at every bar and every computed RSI
entry is exactly `100` (the guarded division by `avgLoss` is never reached);
in particular the first computed entry, at index `period`, is `100`. -/
theorem c5_rsi_increasing (closes : List ℚ) (period : ℕ)
    (hp : 1 ≤ period) (hlen : period + 1 ≤ closes.length)
    (hmono : ∀ i < closes.length - 1, closes.getD i 0 < closes.getD (i + 1) 0) :
    (∀ x ∈ calcRSI closes period, x = none ∨ x = some 100) ∧
    jsGet (calcRSI closes period) period = some 100 := by
  have hdelta : ∀ i, 1 ≤ i → i < closes.length →
      0 < closes.getD i 0 - closes.getD (i - 1) 0 := by
    intro i h1 h2
    have := hmono (i - 1) (by omega)
    rw [show i - 1 + 1 = i from by omega] at this
    linarith
  have hinitL : rsiInitL closes period = 0 := by
    unfold rsiInitL
    rw [map_range'_const 1 period _ (0 : ℚ) (fun i h1 hin => by
      dsimp only
      rw [if_pos (hdelta i h1 (by omega))])]
    rw [List.sum_replicate, smul_zero, zero_div]
  unfold calcRSI
  rw [if_neg (by omega)]
  dsimp only
  rw [hinitL]
  have key := foldl_inv (rsiStep closes period)
    (fun st => st.1.length = closes.length ∧ st.2.2 = 0 ∧
      jsGet st.1 period = some 100 ∧ ∀ x ∈ st.1, x = none ∨ x = some 100)
    (List.range' (period + 1) (closes.length - (period + 1)))
    (jsSet (List.replicate closes.length none) period
        (rsiVal (rsiInitG closes period) 0),
      rsiInitG closes period, 0)
    ⟨by
        rw [length_jsSet_lt (by rw [List.length_replicate]; omega)]
        exact List.length_replicate closes.length none,
      rfl,
      by rw [rsiVal_zero_loss, jsGet_jsSet_self (by rw [List.length_replicate]; omega)],
      fun x hx => by
        rcases mem_jsSet hx with h | h | h
        · exact Or.inl (List.eq_of_mem_replicate h)
        · exact Or.inl h
        · rw [rsiVal_zero_loss] at h
          exact Or.inr h⟩
    (fun st i hi hst => by
      obtain ⟨hlen', hL, hTop, hAll⟩ := hst
      have hirange := List.mem_range'_1.1 hi
      unfold rsiStep
      dsimp only
      have hd : 0 < closes.getD i 0 - closes.getD (i - 1) 0 :=
        hdelta i (by omega) (by omega)
      rw [hL, if_pos hd, if_neg (not_lt.mpr (le_of_lt hd)), zero_mul, zero_add, zero_div]
      refine ⟨?_, rfl, ?_, ?_⟩
      · rw [length_jsSet_lt (by rw [hlen']; omega)]
        exact hlen'
      · rw [jsGet_jsSet_ne (by omega) (by rw [hlen']; omega), hTop]
      · intro x hx
        rcases mem_jsSet hx with h | h | h
        · exact hAll x h
        · exact Or.inl h
        · rw [rsiVal_zero_loss] at h
          exact Or.inr h)
  exact ⟨key.2.2.2, key.2.2.1⟩

unseal Rat.add Rat.mul Rat.sub Rat.inv Rat.ofScientific in
/-- Witness for C5 on the strictly increasing series `1, 2, …, 16` with the
default period 14. -/
theorem c5_witness :
    (1 ≤ 14 ∧ 14 + 1 ≤ incr16.length ∧
      ∀ i < incr16.length - 1, incr16.getD i 0 < incr16.getD (i + 1) 0) ∧
    ((∀ x ∈ calcRSI incr16 14, x = none ∨ x = some 100) ∧
      jsGet (calcRSI incr16 14) 14 = some 100) :=
  ⟨⟨by decide, by decide, by decide⟩,
    c5_rsi_increasing incr16 14 (by decide) (by decide) (by decide)⟩

/-- **C8.** For every close series and every positive period, each non-marker
entry of `calcRSI` lies in the closed interval `[0, 100]`: the running average
gain and loss are nonnegative, so `100 - 100/(1 + avgGain/avgLoss)` lies in
`[0, 100)` and the guarded branch yields exactly `100`. -/
theorem c8_rsi_bounded (closes : List ℚ) (period : ℕ) (hp : 1 ≤ period) :
    ∀ x ∈ calcRSI closes period, x = none ∨ ∃ v, x = some v ∧ 0 ≤ v ∧ v ≤ 100 := by
  have hpq : (1 : ℚ) ≤ (period : ℚ) := by exact_mod_cast hp
  unfold calcRSI
  dsimp only
  split
  · intro x hx
    exact Or.inl (List.eq_of_mem_replicate hx)
  · have hG : 0 ≤ rsiInitG closes period := by
      unfold rsiInitG
      refine div_nonneg (List.sum_nonneg fun x hx => ?_) (by linarith)
      obtain ⟨i, _, hfi⟩ := List.mem_map.1 hx
      rw [← hfi]
      dsimp only
      split
      · rename_i hpos
        linarith
      · exact le_refl 0
    have hL : 0 ≤ rsiInitL closes period := by
      unfold rsiInitL
      refine div_nonneg (List.sum_nonneg fun x hx => ?_) (by linarith)
      obtain ⟨i, _, hfi⟩ := List.mem_map.1 hx
      rw [← hfi]
      dsimp only
      split
      · exact le_refl 0
      · exact abs_nonneg _
    have key := foldl_inv (rsiStep closes period)
      (fun st => 0 ≤ st.2.1 ∧ 0 ≤ st.2.2 ∧
        ∀ x ∈ st.1, x = none ∨ ∃ v, x = some v ∧ 0 ≤ v ∧ v ≤ 100)
      (List.range' (period + 1) (closes.length - (period + 1)))
      (jsSet (List.replicate closes.length none) period
          (rsiVal (rsiInitG closes period) (rsiInitL closes period)),
        rsiInitG closes period, rsiInitL closes period)
      ⟨hG, hL, fun x hx => by
        rcases mem_jsSet hx with h | h | h
        · exact Or.inl (List.eq_of_mem_replicate h)
        · exact Or.inl h
        · exact Or.inr ⟨_, h, (rsiVal_bounds hG hL).1, (rsiVal_bounds hG hL).2⟩⟩
      (fun st i hi hst => by
        obtain ⟨hg, hl, hAll⟩ := hst
        unfold rsiStep
        dsimp only
        have hgain : (0 : ℚ) ≤ if 0 < closes.getD i 0 - closes.getD (i - 1) 0
            then closes.getD i 0 - closes.getD (i - 1) 0 else 0 := by
          split
          · linarith
          · exact le_refl 0
        have hloss : (0 : ℚ) ≤ if closes.getD i 0 - closes.getD (i - 1) 0 < 0
            then |closes.getD i 0 - closes.getD (i - 1) 0| else 0 := by
          split
          · exact abs_nonneg _
          · exact le_refl 0
        have hg' : 0 ≤ (st.2.1 * ((period : ℚ) - 1) +
            (if 0 < closes.getD i 0 - closes.getD (i - 1) 0
              then closes.getD i 0 - closes.getD (i - 1) 0 else 0)) / (period : ℚ) :=
          div_nonneg (add_nonneg (mul_nonneg hg (by linarith)) hgain) (by linarith)
        have hl' : 0 ≤ (st.2.2 * ((period : ℚ) - 1) +
            (if closes.getD i 0 - closes.getD (i - 1) 0 < 0
              then |closes.getD i 0 - closes.getD (i - 1) 0| else 0)) / (period : ℚ) :=
          div_nonneg (add_nonneg (mul_nonneg hl (by linarith)) hloss) (by linarith)
        refine ⟨hg', hl', fun x hx => ?_⟩
        rcases mem_jsSet hx with h | h | h
        · exact hAll x h
        · exact Or.inl h
        · exact Or.inr ⟨_, h, (rsiVal_bounds hg' hl').1, (rsiVal_bounds hg' hl').2⟩)
    exact key.2.2

unseal Rat.add Rat.mul Rat.sub Rat.inv Rat.ofScientific in
/-- Witness for C8 on a mixed 16-bar series with the default period 14. -/
theorem c8_witness :
    (1 ≤ 14) ∧
    (∀ x ∈ calcRSI mixed16 14, x = none ∨ ∃ v, x = some v ∧ 0 ≤ v ∧ v ≤ 100) :=
  ⟨by decide, c8_rsi_bounded mixed16 14 (by decide)⟩

-- ── C2 and C9: backtest invariants ──

theorem mem_of_getElemOpt {α : Type _} {l : List α} {i : ℕ} {a : α}
    (h : l[i]? = some a) : a ∈ l := by
  obtain ⟨hlt, heq⟩ := List.getElem?_eq_some.mp h
  exact heq ▸ List.getElem_mem hlt

theorem getD_map_close_pos {rows : List Row} (hpos : ∀ r ∈ rows, 0 < r.close)
    {i : ℕ} (hi : i < rows.length) : 0 < (rows.map (·.close)).getD i 0 := by
  rw [List.getD_eq_getElem?_getD, List.getElem?_map]
  cases hrow : rows[i]? with
  | none =>
    rw [List.getElem?_eq_none_iff] at hrow
    omega
  | some r =>
    dsimp only [Option.map_some', Option.getD_some]
    exact hpos r (mem_of_getElemOpt hrow)

theorem altExpected_concat (l : List Trade) (t : Trade) :
    altExpected (l ++ [t]) =
      match altExpected l with
      | some s =>
        if t.ty = s then
          some (match s with | Side.buy => Side.sell | Side.sell => Side.buy)
        else none
      | none => none := by
  unfold altExpected
  rw [List.foldl_append]
  rfl

theorem altExpected_none_absorbs (l : List Trade) :
    l.foldl
      (fun e t =>
        match e with
        | some s =>
          if t.ty = s then
            some (match s with | Side.buy => Side.sell | Side.sell => Side.buy)
          else none
        | none => none)
      none = none := by
  induction l with
  | nil => rfl
  | cons t rest ih =>
    rw [List.foldl_cons]
    exact ih

theorem altExpected_head {t : Trade} {rest : List Trade}
    (h : altExpected (t :: rest) ≠ none) : t.ty = Side.buy := by
  by_contra hne
  apply h
  unfold altExpected
  rw [List.foldl_cons]
  have hstep : (match some Side.buy with
      | some s =>
        if t.ty = s then
          some (match s with | Side.buy => Side.sell | Side.sell => Side.buy)
        else none
      | none => (none : Option Side)) = none := by
    dsimp only
    rw [if_neg hne]
  rw [hstep]
  exact altExpected_none_absorbs rest

/-- **C9.** For every series with positive closes, at every point of the
`backtestRSI` simulation the cash balance and the held position are never both
positive (the simulator holds at most one position), and the trade log
strictly alternates between BUY and SELL beginning with a BUY
(`altExpected ≠ none` is exactly that alternation check, and the first logged
trade is a BUY). -/
theorem c9_single_position (rows : List Row) (buyT sellT : ℚ)
    (hpos : ∀ r ∈ rows, 0 < r.close) (k : ℕ) :
    ¬(0 < (btLoopK (rows.map (·.close)) (calcRSI (rows.map (·.close)) 14)
          (rows.map (·.date)) buyT sellT k).cash ∧
        0 < (btLoopK (rows.map (·.close)) (calcRSI (rows.map (·.close)) 14)
          (rows.map (·.date)) buyT sellT k).position) ∧
    altExpected (btLoopK (rows.map (·.close)) (calcRSI (rows.map (·.close)) 14)
        (rows.map (·.date)) buyT sellT k).log ≠ none ∧
    (∀ t rest, (btLoopK (rows.map (·.close)) (calcRSI (rows.map (·.close)) 14)
        (rows.map (·.date)) buyT sellT k).log = t :: rest → t.ty = Side.buy) := by
  have key := foldl_inv
    (btStep (rows.map (·.close)) (calcRSI (rows.map (·.close)) 14)
      (rows.map (·.date)) buyT sellT)
    (fun st =>
      (st.position = 0 ∧ 0 < st.cash ∧ altExpected st.log = some Side.buy) ∨
      (0 < st.position ∧ st.cash = 0 ∧ altExpected st.log = some Side.sell))
    ((List.range' 1 ((rows.map (·.close)).length - 1)).take k)
    ⟨0, 1, 0, []⟩
    (Or.inl ⟨rfl, by norm_num, rfl⟩)
    (fun st i hi hst => by
      have hirange := List.mem_range'_1.1 (List.mem_of_mem_take hi)
      rw [List.length_map] at hirange
      have hiclose : 0 < (rows.map (·.close)).getD i 0 :=
        getD_map_close_pos hpos (by omega)
      unfold btStep
      cases hr : jsGet (calcRSI (rows.map (·.close)) 14) i with
      | none => exact hst
      | some r =>
        dsimp only
        split
        · rename_i hbuy
          rcases hst with ⟨hp0, hcash, halt⟩ | ⟨hppos, _, _⟩
          · refine Or.inr ⟨div_pos hcash hiclose, rfl, ?_⟩
            rw [altExpected_concat, halt]
            rfl
          · exact absurd hbuy.2 (by intro h; rw [h] at hppos; exact lt_irrefl 0 hppos)
        · split
          · rename_i hsell
            rcases hst with ⟨hp0, _, _⟩ | ⟨hppos, hc0, halt⟩
            · exact absurd hsell.2 (by rw [hp0]; exact lt_irrefl 0)
            · refine Or.inl ⟨rfl, mul_pos hppos hiclose, ?_⟩
              rw [altExpected_concat, halt]
              rfl
          · exact hst)
  unfold btLoopK
  refine ⟨?_, ?_, ?_⟩
  · rcases key with ⟨hp0, _, _⟩ | ⟨_, hc0, _⟩
    · intro h
      rw [hp0] at h
      exact lt_irrefl 0 h.2
    · intro h
      rw [hc0] at h
      exact lt_irrefl 0 h.1
  · rcases key with ⟨_, _, halt⟩ | ⟨_, _, halt⟩ <;> rw [halt] <;> exact Option.some_ne_none _
  · intro t rest hlog
    have hne : altExpected (t :: rest) ≠ none := by
      rw [← hlog]
      rcases key with ⟨_, _, h⟩ | ⟨_, _, h⟩ <;> rw [h] <;> exact Option.some_ne_none _
    exact altExpected_head hne

unseal Rat.add Rat.mul Rat.sub Rat.inv Rat.ofScientific in
/-- Witness for C9 on 50 flat bars (RSI is 100 throughout, so no trade ever
fires), after the full 49 loop iterations. -/
theorem c9_witness :
    (∀ r ∈ rowsFlat50, 0 < r.close) ∧
    (¬(0 < (btLoopK (rowsFlat50.map (·.close)) (calcRSI (rowsFlat50.map (·.close)) 14)
          (rowsFlat50.map (·.date)) 30 70 49).cash ∧
        0 < (btLoopK (rowsFlat50.map (·.close)) (calcRSI (rowsFlat50.map (·.close)) 14)
          (rowsFlat50.map (·.date)) 30 70 49).position) ∧
      altExpected (btLoopK (rowsFlat50.map (·.close)) (calcRSI (rowsFlat50.map (·.close)) 14)
          (rowsFlat50.map (·.date)) 30 70 49).log ≠ none ∧
      (∀ t rest, (btLoopK (rowsFlat50.map (·.close)) (calcRSI (rowsFlat50.map (·.close)) 14)
          (rowsFlat50.map (·.date)) 30 70 49).log = t :: rest → t.ty = Side.buy)) :=
  ⟨by decide, c9_single_position rowsFlat50 30 70 (by decide) 49⟩

theorem getLastOpt_drop {α : Type _} {l : List α} {k : ℕ} (h : k < l.length) :
    (l.drop k).getLast? = l.getLast? := by
  rw [List.getLast?_eq_getElem?, List.getLast?_eq_getElem?, List.getElem?_drop,
    List.length_drop, show k + (l.length - k - 1) = l.length - 1 from by omega]

/-- **C2.** If a `backtestRSI` run (at least 50 bars) ends while a position is
still open, the final simulated cash is exactly `position × last close`, the
reported `total_return` is that cash minus 1, and no SELL is appended for the
forced liquidation: the reported trade log is nonempty and still ends with the
original BUY. -/
theorem c2_open_position_liquidation (ticker : String) (rows : List Row) (buyT sellT : ℚ)
    (h50 : 50 ≤ rows.length)
    (hopen : 0 < (btLoop (rows.map (·.close)) (calcRSI (rows.map (·.close)) 14)
        (rows.map (·.date)) buyT sellT).position) :
    ∃ res, backtestRSI ticker rows buyT sellT = some res ∧
      res.total_return = (btLoop (rows.map (·.close)) (calcRSI (rows.map (·.close)) 14)
          (rows.map (·.date)) buyT sellT).position * (rows.map (·.close)).getLastD 0 - 1 ∧
      res.last_trades ≠ [] ∧
      (res.last_trades.getLast?).map (fun t => t.ty) = some Side.buy := by
  have key := foldl_inv
    (btStep (rows.map (·.close)) (calcRSI (rows.map (·.close)) 14)
      (rows.map (·.date)) buyT sellT)
    (fun st => 0 < st.position → (st.log.getLast?).map (fun t => t.ty) = some Side.buy)
    (List.range' 1 ((rows.map (·.close)).length - 1))
    ⟨0, 1, 0, []⟩
    (fun h => absurd h (lt_irrefl 0))
    (fun st i _ hst => by
      unfold btStep
      cases hr : jsGet (calcRSI (rows.map (·.close)) 14) i with
      | none => exact hst
      | some r =>
        dsimp only
        split
        · intro _
          rw [List.getLast?_concat]
          rfl
        · split
          · intro h
            exact absurd h (lt_irrefl 0)
          · exact hst)
  unfold btLoop at hopen ⊢
  have hlast := key hopen
  have hlogne : (List.foldl (btStep (rows.map (·.close)) (calcRSI (rows.map (·.close)) 14)
      (rows.map (·.date)) buyT sellT) ⟨0, 1, 0, []⟩
      (List.range' 1 ((rows.map (·.close)).length - 1))).log ≠ [] := by
    intro hnil
    rw [hnil] at hlast
    exact Option.some_ne_none _ hlast.symm
  have hloglen := List.length_pos.mpr hlogne
  unfold backtestRSI
  rw [if_neg (by omega)]
  dsimp only
  unfold btLoop
  rw [if_pos hopen]
  refine ⟨_, rfl, rfl, ?_, ?_⟩
  · intro hnil
    rw [List.drop_eq_nil_iff] at hnil
    omega
  · rw [getLastOpt_drop (by omega)]
    exact hlast

unseal Rat.add Rat.mul Rat.sub Rat.inv Rat.ofScientific in
/-- Witness for C2 on the declining-then-flat 50-bar series: RSI(14) hits 0 at
bar 14 (buy) and never exceeds 70, so the run ends holding `1/86` shares. -/
theorem c2_witness :
    (50 ≤ rowsDecline.length ∧
      0 < (btLoop (rowsDecline.map (·.close)) (calcRSI (rowsDecline.map (·.close)) 14)
          (rowsDecline.map (·.date)) 30 70).position) ∧
    (∃ res, backtestRSI "T" rowsDecline 30 70 = some res ∧
      res.total_return = (btLoop (rowsDecline.map (·.close))
          (calcRSI (rowsDecline.map (·.close)) 14)
          (rowsDecline.map (·.date)) 30 70).position *
          (rowsDecline.map (·.close)).getLastD 0 - 1 ∧
      res.last_trades ≠ [] ∧
      (res.last_trades.getLast?).map (fun t => t.ty) = some Side.buy) :=
  ⟨⟨by decide, by decide⟩,
    c2_open_position_liquidation "T" rowsDecline 30 70 (by decide) (by decide)⟩

-- ── C7 and C10: scan robustness and implicit momentum filters ──

theorem filterMap_filter_ne {α : Type _} (f : String → Option α) (b : String)
    (hfb : f b = none) : ∀ ws : List String,
    ws.filterMap f = (ws.filter (fun s => s ≠ b)).filterMap f
  | [] => rfl
  | s :: tl => by
    rw [List.filter_cons]
    by_cases hsb : s = b
    · rw [if_neg (by simp [hsb]), List.filterMap_cons, hsb, hfb]
      exact filterMap_filter_ne f b hfb tl
    · rw [if_pos (by simp [hsb]), List.filterMap_cons, List.filterMap_cons]
      cases f s <;> rw [filterMap_filter_ne f b hfb tl]

/-- **C7.** If the chart fetch for one symbol fails (`none` models both a
`null` reply and a thrown error, which the source's `try/catch` treats
identically), both batch scans produce exactly the output they would produce
on the watchlist without that symbol: the bad symbol is skipped and every
remaining symbol is still processed — one bad symbol never aborts the scan. -/
theorem c7_bad_symbol_skipped (sqrt : ℚ → ℚ) (fetch : String → Option (List Row))
    (names : String → Option String) (ws : List String) (b : String) (n lim : ℕ)
    (hb : fetch b = none) :
    momentumScan sqrt fetch names ws n =
      momentumScan sqrt fetch names (ws.filter (fun s => s ≠ b)) n ∧
    findMoonshots fetch names ws lim =
      findMoonshots fetch names (ws.filter (fun s => s ≠ b)) lim := by
  constructor
  · unfold momentumScan
    rw [← filterMap_filter_ne _ b (by rw [hb]; rfl) ws]
  · unfold findMoonshots
    rw [← filterMap_filter_ne _ b (by rw [hb]; rfl) ws]

unseal Rat.add Rat.mul Rat.sub Rat.inv Rat.ofScientific in
/-- Witness for C7: a two-symbol watchlist where the second symbol's fetch
fails; both scans equal the scans over `["GOOD"]` alone. -/
theorem c7_witness :
    (fetchW7 "BAD" = none) ∧
    (momentumScan ratSqrt fetchW7 noNames ["GOOD", "BAD"] 10 =
        momentumScan ratSqrt fetchW7 noNames
          (["GOOD", "BAD"].filter (fun s => s ≠ "BAD")) 10 ∧
      findMoonshots fetchW7 noNames ["GOOD", "BAD"] 5 =
        findMoonshots fetchW7 noNames
          (["GOOD", "BAD"].filter (fun s => s ≠ "BAD")) 5) :=
  ⟨by decide,
    c7_bad_symbol_skipped ratSqrt fetchW7 noNames ["GOOD", "BAD"] "BAD" 10 5 (by decide)⟩

/-- **C10.** Every pick returned by `momentumScan` survived the implicit
filters: it was computed from a successfully fetched series of at least 60
bars, and its price — the last close of that series — is at least $5. -/
theorem c10_momentum_floor (sqrt : ℚ → ℚ) (fetch : String → Option (List Row))
    (names : String → Option String) (ws : List String) (n : ℕ) :
    ∀ p ∈ momentumScan sqrt fetch names ws n, 5 ≤ p.price ∧
      ∃ rows, fetch p.ticker = some rows ∧ 60 ≤ rows.length ∧
        p.price = (rows.map (·.close)).getLastD 0 := by
  intro p hp
  have hp' : p ∈ ws.filterMap (fun sym => momentumCompute sqrt names sym (fetch sym)) :=
    (List.perm_insertionSort scoreGE _).subset (List.mem_of_mem_take hp)
  obtain ⟨s, _, hcomp⟩ := List.mem_filterMap.1 hp'
  unfold momentumCompute at hcomp
  split at hcomp
  · exact absurd hcomp (by simp)
  rename_i rows hrows
  split at hcomp
  · exact absurd hcomp (by simp)
  rename_i hlen
  dsimp only at hcomp
  split at hcomp
  · exact absurd hcomp (by simp)
  rename_i hprice
  split at hcomp
  · exact absurd hcomp (by simp)
  rename_i base hbase
  have hpfields := Option.some.inj hcomp
  constructor
  · rw [← hpfields]
    exact le_of_not_lt hprice
  · refine ⟨rows, ?_, by omega, ?_⟩
    · rw [← hpfields]
      exact hrows
    · rw [← hpfields]

unseal Rat.add Rat.mul Rat.sub Rat.inv Rat.ofScientific in
/-- Witness for C10: the single successful pick of the `fetchW7` scenario has
price `100 ≥ 5` and comes from a 60-bar series. -/
theorem c10_witness :
    ((⟨"GOOD", 100, 1 / 2, some 0, none, none, none, 100, 0, 22 / 5, 100, "GOOD"⟩ : Pick) ∈
      momentumScan ratSqrt fetchW7 noNames ["GOOD", "BAD"] 10) ∧
    (5 ≤ (⟨"GOOD", 100, 1 / 2, some 0, none, none, none, 100, 0, 22 / 5, 100,
        "GOOD"⟩ : Pick).price ∧
      ∃ rows, fetchW7 (⟨"GOOD", 100, 1 / 2, some 0, none, none, none, 100, 0, 22 / 5, 100,
          "GOOD"⟩ : Pick).ticker = some rows ∧ 60 ≤ rows.length ∧
        (⟨"GOOD", 100, 1 / 2, some 0, none, none, none, 100, 0, 22 / 5, 100,
          "GOOD"⟩ : Pick).price = (rows.map (·.close)).getLastD 0) :=
  ⟨by decide,
    c10_momentum_floor ratSqrt fetchW7 noNames ["GOOD", "BAD"] 10 _ (by decide)⟩

-- ── C3: volume z-score and momentum ranking ──

theorem sorted_take_split :
    ∀ (l : List Pick), l.Sorted scoreGE → ∀ (pa pb : Pick), pa ∈ l →
      pb.score < pa.score → ∀ (n : ℕ), pb ∈ l.take n →
      ∃ l1 l2, l.take n = l1 ++ pa :: l2 ∧ pb ∈ l2
  | [], _, pa, _, hpa, _, _, _ => absurd hpa (List.not_mem_nil pa)
  | x :: tl, hs, pa, pb, hpa, hlt, n, hpb => by
    match n, hpb with
    | 0, hpb => exact absurd hpb (List.not_mem_nil pb)
    | n + 1, hpb => ?_
    rw [List.take_succ_cons] at hpb ⊢
    obtain ⟨hx, hs'⟩ := List.sorted_cons.1 hs
    by_cases hxa : x = pa
    · have hpbtl : pb ∈ tl.take n := by
        rcases List.mem_cons.1 hpb with h | h
        · exfalso
          rw [h, hxa] at hlt
          exact lt_irrefl _ hlt
        · exact h
      exact ⟨[], tl.take n, by rw [hxa, List.nil_append], hpbtl⟩
    · have hpatl : pa ∈ tl := by
        rcases List.mem_cons.1 hpa with h | h
        · exact absurd h.symm hxa
        · exact h
      have hpbtl : pb ∈ tl.take n := by
        rcases List.mem_cons.1 hpb with h | h
        · exfalso
          have hge := hx pa hpatl
          rw [h] at hlt
          exact absurd hlt (not_lt.mpr hge)
        · exact h
      obtain ⟨l1, l2, heq, hmem⟩ := sorted_take_split tl hs' pa pb hpatl hlt n hpbtl
      exact ⟨x :: l1, l2, by rw [heq, List.cons_append], hmem⟩

unseal Rat.add Rat.mul Rat.sub Rat.inv Rat.ofScientific in
/-- **C3** (counterexample). Two symbols with identical trailing returns at
all four lookbacks (all four return fields agree entry-for-entry) but
different volume z-scores (`AAA` reports `4.4`, `BBB` reports `0`): the scan
ranks `AAA` — the higher-volume-z symbol — strictly *below* `BBB`, because
`AAA`'s one-day price spike halves its 52-week-high proximity, and the
proximity term `(prox - 0.95)·2` (−0.9 versus +0.1) outweighs the capped
volume bonus (+0.45 versus 0). -/
theorem c3_counterexample :
    (momentumScan ratSqrt fetchCX3 noNames ["AAA", "BBB"] 10).map
        (fun p => (p.ticker, p.vol_z, p.r1m, p.r3m, p.r6m, p.r12m)) =
      [("BBB", 0, some 0, none, none, none),
       ("AAA", 22 / 5, some 0, none, none, none)] := by
  decide


/-- **C3** (amended). If two watchlist symbols produce identical trailing
returns at all four lookbacks *and additionally* identical 52-week-high
proximity, identical latest RSI and identical latest ADX, and the clamped
volume z-score of the first is strictly larger, then the first symbol's score
is strictly higher and `momentumScan` ranks it strictly above the second
whenever the second appears in the output at all. -/
theorem c3_amended (sqrt : ℚ → ℚ) (fetch : String → Option (List Row))
    (names : String → Option String) (ws : List String) (n : ℕ)
    (a b : String) (rowsA rowsB : List Row) (pa pb : Pick)
    (hfa : fetch a = some rowsA) (hfb : fetch b = some rowsB)
    (hwa : a ∈ ws) (hwb : b ∈ ws)
    (hpa : momentumCompute sqrt names a (fetch a) = some pa)
    (hpb : momentumCompute sqrt names b (fetch b) = some pb)
    (hr1 : retAt (rowsA.map (·.close)) 21 = retAt (rowsB.map (·.close)) 21)
    (hr3 : retAt (rowsA.map (·.close)) 63 = retAt (rowsB.map (·.close)) 63)
    (hr6 : retAt (rowsA.map (·.close)) 126 = retAt (rowsB.map (·.close)) 126)
    (hr12 : retAt (rowsA.map (·.close)) 252 = retAt (rowsB.map (·.close)) 252)
    (hprox : prox52 (rowsA.map (·.close)) = prox52 (rowsB.map (·.close)))
    (hrsi : latestNonNull (calcRSI (rowsA.map (·.close)) 14) 50 =
        latestNonNull (calcRSI (rowsB.map (·.close)) 14) 50)
    (hadx : latestNonNull (calcADX (rowsA.map (·.high)) (rowsA.map (·.low))
          (rowsA.map (·.close)) 14) 0 =
        latestNonNull (calcADX (rowsB.map (·.high)) (rowsB.map (·.low))
          (rowsB.map (·.close)) 14) 0)
    (hz : clampZ (volZ sqrt (rowsB.map (·.volume))) <
        clampZ (volZ sqrt (rowsA.map (·.volume)))) :
    pb.score < pa.score ∧
    (pb ∈ momentumScan sqrt fetch names ws n →
      pa ∈ momentumScan sqrt fetch names ws n ∧
      ∃ l1 l2, momentumScan sqrt fetch names ws n = l1 ++ pa :: l2 ∧ pb ∈ l2) := by
  have hpa0 := hpa
  rw [hfa] at hpa
  rw [hfb] at hpb
  unfold momentumCompute at hpa hpb
  dsimp only at hpa hpb
  split at hpa
  · exact absurd hpa (by simp)
  split at hpa
  · exact absurd hpa (by simp)
  split at hpa
  · exact absurd hpa (by simp)
  rename_i baseA hbaseA
  split at hpb
  · exact absurd hpb (by simp)
  split at hpb
  · exact absurd hpb (by simp)
  split at hpb
  · exact absurd hpb (by simp)
  rename_i baseB hbaseB
  have hpaEq := Option.some.inj hpa
  have hpbEq := Option.some.inj hpb
  have hbase : baseA = baseB := by
    rw [hr1, hr3, hr6, hr12] at hbaseA
    rw [hbaseA] at hbaseB
    exact Option.some.inj hbaseB
  have hscore : pb.score < pa.score := by
    rw [← hpaEq, ← hpbEq]
    dsimp only
    rw [hbase, hprox, hrsi, hadx]
    unfold momentumScore
    have h015 : (0 : ℚ) < 0.15 := by norm_num
    have hmul := mul_lt_mul_of_pos_right hz h015
    linarith
  refine ⟨hscore, fun hpbmem => ?_⟩
  have hresA : pa ∈ ws.filterMap (fun sym => momentumCompute sqrt names sym (fetch sym)) :=
    List.mem_filterMap.2 ⟨a, hwa, hpa0⟩
  have hsorted := List.sorted_insertionSort scoreGE
    (ws.filterMap (fun sym => momentumCompute sqrt names sym (fetch sym)))
  have hsortA : pa ∈ List.insertionSort scoreGE
      (ws.filterMap (fun sym => momentumCompute sqrt names sym (fetch sym))) :=
    (List.perm_insertionSort scoreGE _).mem_iff.2 hresA
  unfold momentumScan at hpbmem ⊢
  obtain ⟨l1, l2, heq, hmem⟩ := sorted_take_split _ hsorted pa pb hsortA hscore n hpbmem
  refine ⟨?_, l1, l2, heq, hmem⟩
  rw [heq]
  exact List.mem_append.2 (Or.inr (List.mem_cons_self pa l2))

unseal Rat.add Rat.mul Rat.sub Rat.inv Rat.ofScientific in
/-- Witness for the amended C3: two flat 60-bar symbols identical except for a
final-bar volume burst on `CCC`; all price-derived quantities agree, the
clamped volume z-scores are `3` versus `0`, and `CCC` outranks `DDD`. -/
theorem c3_amended_witness :
    (fetchW3 "CCC" = some rowsFlatBurst ∧ fetchW3 "DDD" = some rowsFlat60 ∧
      "CCC" ∈ ["CCC", "DDD"] ∧ "DDD" ∈ ["CCC", "DDD"] ∧
      momentumCompute ratSqrt noNames "CCC" (fetchW3 "CCC") =
        some (⟨"CCC", 100, 1 / 2, some 0, none, none, none, 100, 0, 22 / 5, 100,
          "CCC"⟩ : Pick) ∧
      momentumCompute ratSqrt noNames "DDD" (fetchW3 "DDD") =
        some (⟨"DDD", 100, 1 / 20, some 0, none, none, none, 100, 0, 0, 100,
          "DDD"⟩ : Pick) ∧
      retAt (rowsFlatBurst.map (·.close)) 21 = retAt (rowsFlat60.map (·.close)) 21 ∧
      retAt (rowsFlatBurst.map (·.close)) 63 = retAt (rowsFlat60.map (·.close)) 63 ∧
      retAt (rowsFlatBurst.map (·.close)) 126 = retAt (rowsFlat60.map (·.close)) 126 ∧
      retAt (rowsFlatBurst.map (·.close)) 252 = retAt (rowsFlat60.map (·.close)) 252 ∧
      prox52 (rowsFlatBurst.map (·.close)) = prox52 (rowsFlat60.map (·.close)) ∧
      latestNonNull (calcRSI (rowsFlatBurst.map (·.close)) 14) 50 =
        latestNonNull (calcRSI (rowsFlat60.map (·.close)) 14) 50 ∧
      latestNonNull (calcADX (rowsFlatBurst.map (·.high)) (rowsFlatBurst.map (·.low))
          (rowsFlatBurst.map (·.close)) 14) 0 =
        latestNonNull (calcADX (rowsFlat60.map (·.high)) (rowsFlat60.map (·.low))
          (rowsFlat60.map (·.close)) 14) 0 ∧
      clampZ (volZ ratSqrt (rowsFlat60.map (·.volume))) <
        clampZ (volZ ratSqrt (rowsFlatBurst.map (·.volume)))) ∧
    ((⟨"DDD", 100, 1 / 20, some 0, none, none, none, 100, 0, 0, 100, "DDD"⟩ : Pick).score <
      (⟨"CCC", 100, 1 / 2, some 0, none, none, none, 100, 0, 22 / 5, 100, "CCC"⟩ : Pick).score ∧
      ((⟨"DDD", 100, 1 / 20, some 0, none, none, none, 100, 0, 0, 100, "DDD"⟩ : Pick) ∈
          momentumScan ratSqrt fetchW3 noNames ["CCC", "DDD"] 10 →
        (⟨"CCC", 100, 1 / 2, some 0, none, none, none, 100, 0, 22 / 5, 100, "CCC"⟩ : Pick) ∈
          momentumScan ratSqrt fetchW3 noNames ["CCC", "DDD"] 10 ∧
        ∃ l1 l2, momentumScan ratSqrt fetchW3 noNames ["CCC", "DDD"] 10 =
            l1 ++ (⟨"CCC", 100, 1 / 2, some 0, none, none, none, 100, 0, 22 / 5, 100,
              "CCC"⟩ : Pick) :: l2 ∧
          (⟨"DDD", 100, 1 / 20, some 0, none, none, none, 100, 0, 0, 100, "DDD"⟩ : Pick) ∈ l2)) :=
  ⟨⟨by decide, by decide, by decide, by decide, by decide, by decide, by decide, by decide,
      by decide, by decide, by decide, by decide, by decide, by decide⟩,
    c3_amended ratSqrt fetchW3 noNames ["CCC", "DDD"] 10 "CCC" "DDD" rowsFlatBurst rowsFlat60
      (⟨"CCC", 100, 1 / 2, some 0, none, none, none, 100, 0, 22 / 5, 100, "CCC"⟩ : Pick)
      (⟨"DDD", 100, 1 / 20, some 0, none, none, none, 100, 0, 0, 100, "DDD"⟩ : Pick)
      (by decide) (by decide) (by decide) (by decide) (by decide) (by decide) (by decide)
      (by decide) (by decide) (by decide) (by decide) (by decide) (by decide) (by decide)⟩
